import Mathlib

/-!
Verification of the sensorimotor temporal-memory orchestration layer
(`GeneralTemporalMemory` in `sensorimotor/general_temporal_memory.py`).

Cells and columns are modelled as natural numbers.  Python sets become
`Finset Nat`, the `chosenCellForColumn` dict becomes `Nat → Option Nat`,
and the mutable `Connections` graph is threaded explicitly through every
operation that can allocate a segment.  The external collaborators (the
base `TemporalMemory` algorithm and the `Connections` graph internals)
are not part of the excerpt; they are modelled as abstract operation
fields of a `Base` structure, following the contracts in the spec.

Because `computeFn` in the source mutates two of its arguments through
Python aliasing (`prevCellActivity = prevActiveExternalCells` followed by
an in-place `update`, and `burstColumns` writing into the caller's
`chosenCellForColumn` dict), the embedding returns, besides the
documented six-tuple, the final value of the caller-visible
`prevActiveExternalCells` object, so that those heap effects are
observable as values.
-/

namespace GeneralTemporalMemory

/-- A segment of the connectivity graph.  Modelled from the spec: a segment
is owned by exactly one cell; `segId` is its allocation identity. -/
structure Segment where
  segId : Nat
  cell : Nat
deriving DecidableEq

/-- Modelled from the spec: the externally-owned connectivity graph, reduced
to the part this layer observes — the list of allocated segments and the
next allocation identity.  Synapse data is abstracted into the oracle
operations of `Base`. -/
structure Connections where
  segments : List Segment
  nextSegId : Nat
deriving DecidableEq

/-- Modelled from the spec: `createSegment(cell)` allocates a brand-new
segment owned by `cell`, growing the graph. -/
def Connections.createSegment (conn : Connections) (cell : Nat) :
    Connections × Segment :=
  let seg : Segment := { segId := conn.nextSegId, cell := cell }
  ({ segments := conn.segments ++ [seg], nextSegId := conn.nextSegId + 1 }, seg)

/-- Modelled from the spec: the operations of the external Base Temporal
Memory and Connections collaborators that this layer calls into
(spec section 6).  They are abstract function fields; theorems that need
behavioural guarantees about them take those guarantees as hypotheses. -/
structure Base where
  numberOfCells : Nat
  minThreshold : Nat
  cellsForColumn : Nat → Finset Nat
  activateCorrectlyPredictiveCells :
    Finset Nat → Finset Nat → Finset Nat × Finset Nat × Finset Nat
  mostActiveSegmentForCells :
    Connections → List Nat → List Nat → Nat → Option Segment
  leastUsedCell : Finset Nat → Connections → Nat
  learnOnSegments :
    Connections → Finset Segment → Finset Segment → Finset Nat →
      Finset Nat → Finset Nat → Connections
  computePredictiveCells : Finset Nat → Connections → Finset Segment × Finset Nat

/-- Spec section 6 contract for `mostActiveSegmentForCells`: when a segment
is returned, it is a segment of one of the candidate cells. -/
def MostOk (B : Base) : Prop :=
  ∀ conn cands ref th seg,
    B.mostActiveSegmentForCells conn cands ref th = some seg → seg.cell ∈ cands

/-- Spec section 6 contract for `leastUsedCell`: the selected cell belongs to
the candidate set. -/
def LeastOk (B : Base) : Prop :=
  ∀ cells conn, Finset.Nonempty cells → B.leastUsedCell cells conn ∈ cells

/-- `reindexActiveExternalCells` (source lines 274-285): shift every raw
external input index by `numberOfCells`, moving it outside the range of
valid internal cell indices. -/
def reindexActiveExternalCells (numberOfCells : Nat)
    (activeExternalCells : Finset Nat) : Finset Nat :=
  activeExternalCells.image (fun index => index + numberOfCells)

/-- Python's `list(...)` conversion of a set, and the `for` iteration order
over a set, are embedded as the ascending enumeration of the finite set (a
deterministic, stable order, as the spec requires of the external
tie-breaks). -/
def ascList (s : Finset Nat) : List Nat :=
  (List.range (s.sup id + 1)).filter (· ∈ s)

theorem mem_ascList (s : Finset Nat) (c : Nat) : c ∈ ascList s ↔ c ∈ s := by
  unfold ascList
  simp only [List.mem_filter, List.mem_range, decide_eq_true_eq]
  exact ⟨fun h => h.2, fun h => ⟨Nat.lt_succ_of_le (Finset.le_sup (f := id) h), h⟩⟩

theorem length_ascList (s : Finset Nat) : (ascList s).length = s.card := by
  have h1 : Finset.filter (· ∈ s) (Finset.range (s.sup id + 1)) = s := by
    rw [Finset.filter_mem_eq_inter]
    exact Finset.inter_eq_right.mpr
      (fun x hx => Finset.mem_range.mpr (Nat.lt_succ_of_le (Finset.le_sup (f := id) hx)))
  calc (ascList s).length
      = (Finset.filter (· ∈ s) (Finset.range (s.sup id + 1))).card := rfl
    _ = s.card := by rw [h1]

/-- The accumulator of `burstColumns`' loop: the four result sets being
built up plus the threaded connectivity graph. -/
structure BurstState where
  activeCells : Finset Nat
  winnerCells : Finset Nat
  learningSegments : Finset Segment
  chosenCellForColumn : Nat → Option Nat
  connections : Connections

/-- Source lines 249-251: the candidate winner pool is all cells of the
column unless `learnOnOneCell` holds and the chosen-cell map already has an
entry for this column, in which case it is that single cell. -/
def winnerCandidates (learnOnOneCell : Bool) (chosenCellForColumn : Nat → Option Nat)
    (column : Nat) (cells : Finset Nat) : Finset Nat :=
  match learnOnOneCell, chosenCellForColumn column with
  | true, some chosenCell => {chosenCell}
  | _, _ => cells

/-- Source lines 253-259: look up the most active qualifying segment among
the candidate cells; if none qualifies, fall back to the least used cell and
create a new segment on it.  Returns the selected segment and the possibly
grown graph. -/
def selectSegment (B : Base) (conn : Connections) (cands prevActiveCells : Finset Nat) :
    Segment × Connections :=
  match B.mostActiveSegmentForCells conn (ascList cands)
      (ascList prevActiveCells) B.minThreshold with
  | some bestSegment => (bestSegment, conn)
  | none =>
      let created := conn.createSegment (B.leastUsedCell cands conn)
      (created.2, created.1)

/-- One iteration of the loop body of `burstColumns` (source lines 245-265)
for a single unpredicted active column. -/
def burstOne (B : Base) (prevActiveCells : Finset Nat) (learnOnOneCell : Bool)
    (st : BurstState) (column : Nat) : BurstState :=
  let cells := B.cellsForColumn column
  let cands := winnerCandidates learnOnOneCell st.chosenCellForColumn column cells
  let sel := selectSegment B st.connections cands prevActiveCells
  { activeCells := st.activeCells ∪ cells
    winnerCells := insert sel.1.cell st.winnerCells
    learningSegments := insert sel.1 st.learningSegments
    chosenCellForColumn := fun c =>
      if c = column then some sel.1.cell else st.chosenCellForColumn c
    connections := sel.2 }

/-- `burstColumns` (source lines 205-267).  The Python `for` loop over the
set of unpredicted columns is embedded as a fold over the columns in
ascending order (a deterministic iteration order, as the spec requires of
tie-breaking). -/
def burstColumns (B : Base) (activeColumns predictedColumns prevActiveCells : Finset Nat)
    (learnOnOneCell : Bool) (chosenCellForColumn : Nat → Option Nat)
    (connections : Connections) : BurstState :=
  (ascList (activeColumns \ predictedColumns)).foldl
    (burstOne B prevActiveCells learnOnOneCell)
    { activeCells := ∅
      winnerCells := ∅
      learningSegments := ∅
      chosenCellForColumn := chosenCellForColumn
      connections := connections }

/-- Result of `computeFn`: the documented six-tuple, plus the threaded
final connectivity graph, plus the final value of the caller's
`prevActiveExternalCells` object.  The latter is needed because the source
binds `prevCellActivity = prevActiveExternalCells` (an alias, source line
171) and then calls `prevCellActivity.update(prevWinnerCells)` (line 174),
mutating the caller's set in place.  The returned `chosenCellForColumn` is
also, in the source, the very dict object the caller passed in (mutated in
place by `burstColumns`). -/
structure ComputeFnResult where
  activeCells : Finset Nat
  winnerCells : Finset Nat
  activeSegments : Finset Segment
  predictiveCells : Finset Nat
  predictedColumns : Finset Nat
  chosenCellForColumn : Nat → Option Nat
  connections : Connections
  finalPrevActiveExternalCells : Finset Nat

/-- `computeFn` (source lines 109-192).  Note the aliasing semantics of the
learning block: after `prevCellActivity.update(prevWinnerCells)` the set
object named `prevActiveExternalCells` already contains the previous winner
cells, so the third argument of `learnOnSegments` (source line 178,
`prevActiveCells | prevActiveExternalCells`) is computed from the mutated
set. -/
def computeFn (B : Base) (activeColumns activeExternalCells prevActiveExternalCells
    prevPredictiveCells : Finset Nat) (prevActiveSegments : Finset Segment)
    (prevActiveCells prevWinnerCells : Finset Nat) (connections : Connections)
    (formInternalConnections learnOnOneCell : Bool)
    (chosenCellForColumn : Nat → Option Nat) (learn : Bool) : ComputeFnResult :=
  let act := B.activateCorrectlyPredictiveCells prevPredictiveCells activeColumns
  let predictedColumns := act.2.2
  let burst := burstColumns B activeColumns predictedColumns
    (prevActiveCells ∪ prevActiveExternalCells) learnOnOneCell
    chosenCellForColumn connections
  let activeCells := act.1 ∪ burst.activeCells
  let winnerCells := act.2.1 ∪ burst.winnerCells
  let mutatedPrevExternal :=
    if learn then
      (if formInternalConnections then prevActiveExternalCells ∪ prevWinnerCells
       else prevActiveExternalCells)
    else prevActiveExternalCells
  let conn2 :=
    if learn then
      B.learnOnSegments burst.connections prevActiveSegments burst.learningSegments
        (prevActiveCells ∪ mutatedPrevExternal) winnerCells mutatedPrevExternal
    else burst.connections
  let pred := B.computePredictiveCells (activeCells ∪ activeExternalCells) conn2
  { activeCells := activeCells
    winnerCells := winnerCells
    activeSegments := pred.1
    predictiveCells := pred.2
    predictedColumns := predictedColumns
    chosenCellForColumn := burst.chosenCellForColumn
    connections := conn2
    finalPrevActiveExternalCells := mutatedPrevExternal }

/-- The persisted state of the layer: the base algorithm's per-step fields
(`activeCells`, `winnerCells`, `activeSegments`, `predictiveCells`, the
connectivity graph) together with this layer's own fields (source lines
52-57). -/
structure State where
  activeCells : Finset Nat
  winnerCells : Finset Nat
  activeSegments : Finset Segment
  predictiveCells : Finset Nat
  activeExternalCells : Finset Nat
  chosenCellForColumn : Nat → Option Nat
  unpredictedActiveColumns : Finset Nat
  predictedActiveCells : Finset Nat
  connections : Connections

/-- Source lines 74-75: `if not activeExternalCells: activeExternalCells =
set()` — a `None` argument, and an empty set (falsy in Python), are both
normalized to the empty set. -/
def normalizeExternalCells (activeExternalCells : Option (Finset Nat)) : Finset Nat :=
  match activeExternalCells with
  | none => ∅
  | some s => if s = ∅ then ∅ else s

/-- The inner call of `compute` (source lines 77-95): reindex the external
cells, then invoke `computeFn` on the persisted previous-step state. -/
def computeStep (B : Base) (learnOnOneCell : Bool) (s : State)
    (activeColumns : Finset Nat) (activeExternalCellsArg : Option (Finset Nat))
    (formInternalConnections learn : Bool) : ComputeFnResult :=
  computeFn B activeColumns
    (reindexActiveExternalCells B.numberOfCells
      (normalizeExternalCells activeExternalCellsArg))
    s.activeExternalCells s.predictiveCells s.activeSegments s.activeCells
    s.winnerCells s.connections formInternalConnections learnOnOneCell
    s.chosenCellForColumn learn

/-- `compute` (source lines 60-106): run the step function, then replace all
persisted per-step fields and recompute the two diagnostic sets.  Note that
`predictedActiveCells` (source line 100) intersects the *previous*
`predictiveCells` with the new `activeCells`, since the `predictiveCells`
field is only overwritten afterwards (line 105). -/
def compute (B : Base) (learnOnOneCell : Bool) (s : State)
    (activeColumns : Finset Nat) (activeExternalCellsArg : Option (Finset Nat))
    (formInternalConnections learn : Bool) : State :=
  let r := computeStep B learnOnOneCell s activeColumns activeExternalCellsArg
    formInternalConnections learn
  { activeCells := r.activeCells
    winnerCells := r.winnerCells
    activeSegments := r.activeSegments
    predictiveCells := r.predictiveCells
    activeExternalCells :=
      reindexActiveExternalCells B.numberOfCells
        (normalizeExternalCells activeExternalCellsArg)
    chosenCellForColumn := r.chosenCellForColumn
    unpredictedActiveColumns := activeColumns \ r.predictedColumns
    predictedActiveCells := s.predictiveCells ∩ r.activeCells
    connections := r.connections }

/-- `reset` (source lines 195-202).  The base class `reset` (modelled from
the spec: it clears the base-owned per-step sets, leaving the connectivity
graph intact) is followed by clearing this layer's external-cell set,
chosen-cell map and diagnostic sets. -/
def reset (s : State) : State :=
  { s with
    activeCells := ∅
    winnerCells := ∅
    activeSegments := ∅
    predictiveCells := ∅
    activeExternalCells := ∅
    chosenCellForColumn := fun _ => none
    unpredictedActiveColumns := ∅
    predictedActiveCells := ∅ }

/-! ### Concrete collaborator instances used to exercise the layer -/

/-- The empty connectivity graph. -/
def conn0 : Connections := { segments := [], nextSegId := 0 }

/-- Modelled from the spec: a deterministic least-used-cell tie-break
(lowest identifier first, as the spec suggests for reproducibility). -/
def minCell (cells : Finset Nat) (_conn : Connections) : Nat :=
  if h : Finset.Nonempty cells then cells.min' h else 0

theorem minCell_mem (cells : Finset Nat) (conn : Connections)
    (h : Finset.Nonempty cells) : minCell cells conn ∈ cells := by
  unfold minCell
  rw [dif_pos h]
  exact cells.min'_mem h

/-- Modelled from the spec: a small concrete instantiation of the external
collaborators — topology of 2 columns of 2 cells (`numberOfCells = 4`), a
graph in which no segment ever reaches the activity threshold, and inert
base-algorithm phases.  It satisfies the collaborator contracts `MostOk`
and `LeastOk`. -/
def okBase : Base :=
  { numberOfCells := 4
    minThreshold := 1
    cellsForColumn := fun column => {2 * column, 2 * column + 1}
    activateCorrectlyPredictiveCells := fun _ _ => (∅, ∅, ∅)
    mostActiveSegmentForCells := fun _ _ _ _ => none
    leastUsedCell := minCell
    learnOnSegments := fun conn _ _ _ _ _ => conn
    computePredictiveCells := fun _ _ => (∅, ∅) }

theorem okBase_mostOk : MostOk okBase :=
  fun _ _ _ _ _ h => Option.noConfusion h

theorem okBase_leastOk : LeastOk okBase :=
  fun cells conn h => minCell_mem cells conn h

/-- A collaborator instantiation whose `learnOnSegments` records, inside the
graph, the presynaptic pool it received as its third argument (one segment
per pool cell, in ascending order), so that the pool handed over by
`computeFn` becomes observable in the result. -/
def spyBase : Base :=
  { okBase with
    learnOnSegments := fun conn _ _ prevActiveCellsAll _ _ =>
      { segments := (ascList prevActiveCellsAll).map
          (fun c => { segId := 0, cell := c })
        nextSegId := conn.nextSegId } }

/-- A chosen-cell map pinning cell 1 for column 0. -/
def pinnedChosen : Nat → Option Nat := fun c => if c = 0 then some 1 else none

/-- The state of a freshly constructed layer: every per-step set empty, the
chosen-cell map empty, the graph empty. -/
def freshState : State :=
  { activeCells := ∅
    winnerCells := ∅
    activeSegments := ∅
    predictiveCells := ∅
    activeExternalCells := ∅
    chosenCellForColumn := fun _ => none
    unpredictedActiveColumns := ∅
    predictedActiveCells := ∅
    connections := conn0 }

/-! ### Helper lemmas about the bursting loop -/

theorem winnerCandidates_pinned (chosen : Nat → Option Nat) (column : Nat)
    (cells : Finset Nat) (W : Nat) (hc : chosen column = some W) :
    winnerCandidates true chosen column cells = {W} := by
  unfold winnerCandidates
  rw [hc]

theorem selectSegment_singleton (B : Base) (conn : Connections) (W : Nat)
    (prev : Finset Nat) (hMost : MostOk B) (hLeast : LeastOk B) :
    (selectSegment B conn ({W} : Finset Nat) prev).1.cell = W := by
  rcases hm : B.mostActiveSegmentForCells conn (ascList ({W} : Finset Nat))
      (ascList prev) B.minThreshold with _ | seg
  · have hmem : B.leastUsedCell ({W} : Finset Nat) conn ∈ ({W} : Finset Nat) :=
      hLeast _ _ (Finset.singleton_nonempty W)
    have heq : B.leastUsedCell ({W} : Finset Nat) conn = W :=
      Finset.mem_singleton.mp hmem
    simp only [selectSegment, hm, Connections.createSegment, heq]
  · have hmem : seg.cell ∈ ascList ({W} : Finset Nat) :=
      hMost _ _ _ _ _ hm
    have heq : seg.cell = W :=
      Finset.mem_singleton.mp ((mem_ascList _ _).mp hmem)
    simp only [selectSegment, hm, heq]

theorem burstOne_chosen_ne (B : Base) (prev : Finset Nat) (lo : Bool)
    (st : BurstState) (column c : Nat) (hne : c ≠ column) :
    (burstOne B prev lo st column).chosenCellForColumn c =
      st.chosenCellForColumn c := by
  simp only [burstOne]
  rw [if_neg hne]

theorem burstOne_chosen_self_isSome (B : Base) (prev : Finset Nat) (lo : Bool)
    (st : BurstState) (column : Nat) :
    ((burstOne B prev lo st column).chosenCellForColumn column).isSome := by
  simp only [burstOne]
  rw [if_pos trivial]
  rfl

theorem burstOne_winners_subset (B : Base) (prev : Finset Nat) (lo : Bool)
    (st : BurstState) (column : Nat) :
    st.winnerCells ⊆ (burstOne B prev lo st column).winnerCells :=
  Finset.subset_insert _ _

theorem burstOne_pinned (B : Base) (prev : Finset Nat) (st : BurstState)
    (column W : Nat) (hMost : MostOk B) (hLeast : LeastOk B)
    (hc : st.chosenCellForColumn column = some W) :
    (burstOne B prev true st column).chosenCellForColumn column = some W ∧
      W ∈ (burstOne B prev true st column).winnerCells := by
  have hsel : (selectSegment B st.connections
      (winnerCandidates true st.chosenCellForColumn column
        (B.cellsForColumn column)) prev).1.cell = W := by
    rw [winnerCandidates_pinned st.chosenCellForColumn column
      (B.cellsForColumn column) W hc]
    exact selectSegment_singleton B st.connections W prev hMost hLeast
  constructor
  · simp only [burstOne]
    rw [if_pos trivial, hsel]
  · simp only [burstOne]
    rw [hsel]
    exact Finset.mem_insert_self _ _

theorem burstOne_segments_length (B : Base) (prev : Finset Nat) (lo : Bool)
    (st : BurstState) (column : Nat)
    (hnone : ∀ conn cands ref th,
      B.mostActiveSegmentForCells conn cands ref th = none) :
    (burstOne B prev lo st column).connections.segments.length =
      st.connections.segments.length + 1 := by
  simp only [burstOne, selectSegment, hnone, Connections.createSegment,
    List.length_append, List.length_singleton]

theorem foldl_chosen_ne (B : Base) (prev : Finset Nat) (lo : Bool)
    (l : List Nat) (st : BurstState) (c : Nat) (hc : c ∉ l) :
    ((l.foldl (burstOne B prev lo) st).chosenCellForColumn c) =
      st.chosenCellForColumn c := by
  induction l generalizing st with
  | nil => rfl
  | cons a tl ih =>
      simp only [List.mem_cons, not_or] at hc
      rw [List.foldl_cons, ih (burstOne B prev lo st a) hc.2,
        burstOne_chosen_ne B prev lo st a c hc.1]

theorem foldl_chosen_isSome_pres (B : Base) (prev : Finset Nat) (lo : Bool)
    (l : List Nat) (st : BurstState) (c : Nat)
    (h : (st.chosenCellForColumn c).isSome) :
    ((l.foldl (burstOne B prev lo) st).chosenCellForColumn c).isSome := by
  induction l generalizing st with
  | nil => exact h
  | cons a tl ih =>
      rw [List.foldl_cons]
      refine ih (burstOne B prev lo st a) ?_
      by_cases hc : c = a
      · subst hc
        exact burstOne_chosen_self_isSome B prev lo st c
      · rw [burstOne_chosen_ne B prev lo st a c hc]
        exact h

theorem foldl_chosen_isSome_of_mem (B : Base) (prev : Finset Nat) (lo : Bool)
    (l : List Nat) (st : BurstState) (c : Nat) (hc : c ∈ l) :
    ((l.foldl (burstOne B prev lo) st).chosenCellForColumn c).isSome := by
  induction l generalizing st with
  | nil => cases hc
  | cons a tl ih =>
      rw [List.foldl_cons]
      by_cases htl : c ∈ tl
      · exact ih (burstOne B prev lo st a) htl
      · have hca : c = a := by
          rcases List.mem_cons.mp hc with h1 | h2
          · exact h1
          · exact absurd h2 htl
        subst hca
        exact foldl_chosen_isSome_pres B prev lo tl _ c
          (burstOne_chosen_self_isSome B prev lo st c)

theorem foldl_winners_mono (B : Base) (prev : Finset Nat) (lo : Bool)
    (l : List Nat) (st : BurstState) :
    st.winnerCells ⊆ (l.foldl (burstOne B prev lo) st).winnerCells := by
  induction l generalizing st with
  | nil => exact Finset.Subset.refl _
  | cons a tl ih =>
      rw [List.foldl_cons]
      exact (burstOne_winners_subset B prev lo st a).trans
        (ih (burstOne B prev lo st a))

theorem foldl_pinned (B : Base) (prev : Finset Nat) (hMost : MostOk B)
    (hLeast : LeastOk B) (l : List Nat) (st : BurstState) (col W : Nat)
    (hc : st.chosenCellForColumn col = some W) :
    (l.foldl (burstOne B prev true) st).chosenCellForColumn col = some W ∧
      (col ∈ l → W ∈ (l.foldl (burstOne B prev true) st).winnerCells) := by
  induction l generalizing st with
  | nil => exact ⟨hc, by simp⟩
  | cons a tl ih =>
      rw [List.foldl_cons]
      by_cases ha : a = col
      · subst ha
        obtain ⟨h1, h2⟩ := burstOne_pinned B prev st a W hMost hLeast hc
        obtain ⟨ih1, _⟩ := ih (burstOne B prev true st a) h1
        exact ⟨ih1, fun _ =>
          foldl_winners_mono B prev true tl (burstOne B prev true st a) h2⟩
      · have hc' : (burstOne B prev true st a).chosenCellForColumn col = some W := by
          rw [burstOne_chosen_ne B prev true st a col (fun h => ha h.symm)]
          exact hc
        obtain ⟨ih1, ih2⟩ := ih (burstOne B prev true st a) hc'
        refine ⟨ih1, fun hmem => ?_⟩
        rcases List.mem_cons.mp hmem with h1 | h2
        · exact absurd h1.symm ha
        · exact ih2 h2

theorem foldl_segments_length (B : Base) (prev : Finset Nat) (lo : Bool)
    (l : List Nat) (st : BurstState)
    (hnone : ∀ conn cands ref th,
      B.mostActiveSegmentForCells conn cands ref th = none) :
    (l.foldl (burstOne B prev lo) st).connections.segments.length =
      st.connections.segments.length + l.length := by
  induction l generalizing st with
  | nil => rfl
  | cons a tl ih =>
      rw [List.foldl_cons, ih (burstOne B prev lo st a),
        burstOne_segments_length B prev lo st a hnone, List.length_cons]
      omega

/-! ### Claims -/

/-- Claim C1: pinning invariant.  With `learnOnOneCell = true`, if the
chosen-cell map carries `column ↦ W` (as recorded when `column` was assigned
winner `W` at the previous step, with no reset in between) and `column` is
again active but not predicted, then the winner selected for `column` by
this step is again `W`: the candidate pool is restricted to `{W}`, so under
the spec contracts for the external segment lookup (`MostOk`) and
least-used-cell fallback (`LeastOk`) the chosen-cell map still carries
`column ↦ W` afterwards and `W` is among the step's winner cells. -/
theorem pinning_invariant (B : Base) (activeColumns activeExternalCells
    prevActiveExternalCells prevPredictiveCells : Finset Nat)
    (prevActiveSegments : Finset Segment)
    (prevActiveCells prevWinnerCells : Finset Nat) (connections : Connections)
    (fic learn : Bool) (chosen : Nat → Option Nat) (column W : Nat)
    (hMost : MostOk B) (hLeast : LeastOk B)
    (hchosen : chosen column = some W)
    (hactive : column ∈ activeColumns)
    (hunpred : column ∉
      (B.activateCorrectlyPredictiveCells prevPredictiveCells activeColumns).2.2) :
    (computeFn B activeColumns activeExternalCells prevActiveExternalCells
        prevPredictiveCells prevActiveSegments prevActiveCells prevWinnerCells
        connections fic true chosen learn).chosenCellForColumn column = some W ∧
      W ∈ (computeFn B activeColumns activeExternalCells prevActiveExternalCells
        prevPredictiveCells prevActiveSegments prevActiveCells prevWinnerCells
        connections fic true chosen learn).winnerCells := by
  have hmem : column ∈ ascList (activeColumns \
      (B.activateCorrectlyPredictiveCells prevPredictiveCells activeColumns).2.2) :=
    (mem_ascList _ _).mpr (Finset.mem_sdiff.mpr ⟨hactive, hunpred⟩)
  obtain ⟨h1, h2⟩ := foldl_pinned B (prevActiveCells ∪ prevActiveExternalCells)
    hMost hLeast
    (ascList (activeColumns \
      (B.activateCorrectlyPredictiveCells prevPredictiveCells activeColumns).2.2))
    { activeCells := ∅
      winnerCells := ∅
      learningSegments := ∅
      chosenCellForColumn := chosen
      connections := connections }
    column W hchosen
  exact ⟨h1, Finset.mem_union_right _ (h2 hmem)⟩

/-- Witness for C1: concrete topology of 2 columns of 2 cells, column 0
pinned to cell 1; after one further unpredicted activation of column 0 the
winner is again cell 1. -/
theorem pinning_invariant_witness :
    (computeFn okBase {0} ∅ ∅ ∅ ∅ ∅ ∅ conn0 true true pinnedChosen
        true).chosenCellForColumn 0 = some 1 ∧
      1 ∈ (computeFn okBase {0} ∅ ∅ ∅ ∅ ∅ ∅ conn0 true true pinnedChosen
        true).winnerCells :=
  pinning_invariant okBase {0} ∅ ∅ ∅ ∅ ∅ ∅ conn0 true true pinnedChosen 0 1
    okBase_mostOk okBase_leastOk rfl (by decide) (by decide)

/-- Claim C2: for every `numberOfCells > 0` and every set of raw external
identifiers, the reindexed set is disjoint from the internal-cell range
`[0, numberOfCells)`, and the reindexing transform is injective: the
reindexed set has the same cardinality as the raw set, and two distinct raw
identifiers never collide after the shift. -/
theorem reindex_disjoint_and_injective (numberOfCells : Nat) (raw : Finset Nat)
    (hpos : 0 < numberOfCells) :
    Disjoint (reindexActiveExternalCells numberOfCells raw)
        (Finset.range numberOfCells) ∧
      (reindexActiveExternalCells numberOfCells raw).card = raw.card ∧
      ∀ i ∈ raw, ∀ j ∈ raw, i + numberOfCells = j + numberOfCells → i = j := by
  refine ⟨?_, ?_, ?_⟩
  · rw [Finset.disjoint_left]
    intro x hx hrange
    rw [reindexActiveExternalCells, Finset.mem_image] at hx
    obtain ⟨i, _, rfl⟩ := hx
    rw [Finset.mem_range] at hrange
    omega
  · exact Finset.card_image_of_injective raw (add_left_injective numberOfCells)
  · intro i _ j _ h
    omega

/-- Witness for C2 at `numberOfCells = 4`, raw identifiers `{5, 7}`. -/
theorem reindex_disjoint_and_injective_witness :
    0 < 4 ∧
      (Disjoint (reindexActiveExternalCells 4 ({5, 7} : Finset Nat))
          (Finset.range 4) ∧
        (reindexActiveExternalCells 4 ({5, 7} : Finset Nat)).card =
          ({5, 7} : Finset Nat).card ∧
        ∀ i ∈ ({5, 7} : Finset Nat), ∀ j ∈ ({5, 7} : Finset Nat),
          i + 4 = j + 4 → i = j) :=
  ⟨by decide, reindex_disjoint_and_injective 4 {5, 7} (by decide)⟩

/-- Claim C3 — refuted, code bug.  `computeFn` is *not* pure over the
collections it is given: it binds `prevCellActivity = prevActiveExternalCells`
(an alias) and calls `.update(prevWinnerCells)` on it, mutating the caller's
set in place; and `burstColumns` writes the new winner into the very
`chosenCellForColumn` dict the caller passed in.  This theorem evaluates
the embedded code at the failing inputs: with `learn = true`,
`formInternalConnections = true`, `prevActiveExternalCells = ∅` and
`prevWinnerCells = {7}`, the caller's external-cell set ends up as `{7}`;
and with one bursting column, the dict passed in (returned as the same
object) gains the entry `0 ↦ 0` although the caller's map was empty. -/
theorem computeFn_mutates_its_inputs :
    (computeFn okBase ∅ ∅ ∅ ∅ ∅ ∅ ({7} : Finset Nat) conn0 true true
        freshState.chosenCellForColumn true).finalPrevActiveExternalCells =
      ({7} : Finset Nat) ∧
      freshState.chosenCellForColumn 0 = none ∧
      (computeFn okBase {0} ∅ ∅ ∅ ∅ ∅ ∅ conn0 true true
        freshState.chosenCellForColumn true).chosenCellForColumn 0 = some 0 := by
  refine ⟨by decide, rfl, by decide⟩

/-- Claim C4 — refuted, code bug.  Because line 174 mutates
`prevActiveExternalCells` through the `prevCellActivity` alias *before*
line 178 computes `prevActiveCells | prevActiveExternalCells`, the
presynaptic pool handed to `learnOnSegments` for currently-active segments
additionally contains the previous winner cells whenever
`formInternalConnections = true`.  Here `spyBase.learnOnSegments` records
the pool it receives inside the graph: with `prevActiveCells = ∅`,
`prevActiveExternalCells = ∅` and `prevWinnerCells = {7}`, the recorded
pool is `{7}` when the flag is set (instead of the claimed
`∅ = prevActiveCells ∪ prevActiveExternalCells`), and `∅` when it is not. -/
theorem learn_pool_polluted_by_winner_cells :
    (computeFn spyBase ∅ ∅ ∅ ∅ ∅ ∅ ({7} : Finset Nat) conn0 true true
        freshState.chosenCellForColumn true).connections.segments =
      [{ segId := 0, cell := 7 }] ∧
      (computeFn spyBase ∅ ∅ ∅ ∅ ∅ ∅ ({7} : Finset Nat) conn0 false true
        freshState.chosenCellForColumn true).connections.segments = [] := by
  refine ⟨by decide, by decide⟩

/-- Claim C5: two runs of a single compute step from identical previous
state and inputs, differing only in `formInternalConnections`, produce the
same `winnerCells` set and the same `chosenCellForColumn` result from
bursting — winner selection happens before the learning phase and does not
consult the flag. -/
theorem winners_independent_of_formInternalConnections (B : Base)
    (activeColumns activeExternalCells prevActiveExternalCells
      prevPredictiveCells : Finset Nat) (prevActiveSegments : Finset Segment)
    (prevActiveCells prevWinnerCells : Finset Nat) (connections : Connections)
    (lo learn : Bool) (chosen : Nat → Option Nat) :
    (computeFn B activeColumns activeExternalCells prevActiveExternalCells
        prevPredictiveCells prevActiveSegments prevActiveCells prevWinnerCells
        connections true lo chosen learn).winnerCells =
      (computeFn B activeColumns activeExternalCells prevActiveExternalCells
        prevPredictiveCells prevActiveSegments prevActiveCells prevWinnerCells
        connections false lo chosen learn).winnerCells ∧
      (computeFn B activeColumns activeExternalCells prevActiveExternalCells
        prevPredictiveCells prevActiveSegments prevActiveCells prevWinnerCells
        connections true lo chosen learn).chosenCellForColumn =
      (computeFn B activeColumns activeExternalCells prevActiveExternalCells
        prevPredictiveCells prevActiveSegments prevActiveCells prevWinnerCells
        connections false lo chosen learn).chosenCellForColumn :=
  ⟨rfl, rfl⟩

/-- Claim C6: after every compute call, `unpredictedActiveColumns` equals
`activeColumns` minus this step's `predictedColumns`, `predictedActiveCells`
equals the previous step's `predictiveCells` intersected with the new
`activeCells`, and — given that `predictedColumns ⊆ activeColumns` — the
two column sets partition `activeColumns` exactly. -/
theorem diagnostics_partition (B : Base) (lo : Bool) (s : State)
    (activeColumns : Finset Nat) (ext : Option (Finset Nat)) (fic learn : Bool)
    (hsub : (computeStep B lo s activeColumns ext fic learn).predictedColumns ⊆
      activeColumns) :
    (compute B lo s activeColumns ext fic learn).unpredictedActiveColumns =
        activeColumns \
          (computeStep B lo s activeColumns ext fic learn).predictedColumns ∧
      (compute B lo s activeColumns ext fic learn).predictedActiveCells =
        s.predictiveCells ∩
          (computeStep B lo s activeColumns ext fic learn).activeCells ∧
      Disjoint
        (compute B lo s activeColumns ext fic learn).unpredictedActiveColumns
        (computeStep B lo s activeColumns ext fic learn).predictedColumns ∧
      (compute B lo s activeColumns ext fic learn).unpredictedActiveColumns ∪
          (computeStep B lo s activeColumns ext fic learn).predictedColumns =
        activeColumns := by
  refine ⟨rfl, rfl, ?_, ?_⟩
  · exact Finset.sdiff_disjoint
  · exact Finset.sdiff_union_of_subset hsub

/-- Witness for C6 on a fresh layer activating column 0. -/
theorem diagnostics_partition_witness :
    (compute okBase true freshState {0} none true true).unpredictedActiveColumns =
        ({0} : Finset Nat) \
          (computeStep okBase true freshState {0} none true true).predictedColumns ∧
      (compute okBase true freshState {0} none true true).predictedActiveCells =
        freshState.predictiveCells ∩
          (computeStep okBase true freshState {0} none true true).activeCells ∧
      Disjoint
        (compute okBase true freshState {0} none true true).unpredictedActiveColumns
        (computeStep okBase true freshState {0} none true true).predictedColumns ∧
      (compute okBase true freshState {0} none true true).unpredictedActiveColumns ∪
          (computeStep okBase true freshState {0} none true true).predictedColumns =
        ({0} : Finset Nat) :=
  diagnostics_partition okBase true freshState {0} none true true (by decide)

/-- Claim C7: `reindexActiveExternalCells` maps each raw identifier `i` to
`i + numberOfCells` (in particular raw `5` with `numberOfCells = 4` goes to
`9`), and the transform is stateless and deterministic: the external-cell
set a compute step stores depends only on the raw argument and
`numberOfCells`, not on the layer state or any other input. -/
theorem reindex_shift_and_stateless (B : Base) (lo lo2 : Bool) (s s2 : State)
    (cols cols2 raw : Finset Nat) (fic fic2 learn learn2 : Bool) :
    (∀ x, x ∈ reindexActiveExternalCells B.numberOfCells raw ↔
        ∃ i ∈ raw, i + B.numberOfCells = x) ∧
      reindexActiveExternalCells 4 ({5} : Finset Nat) = ({9} : Finset Nat) ∧
      (compute B lo s cols (some raw) fic learn).activeExternalCells =
        (compute B lo2 s2 cols2 (some raw) fic2 learn2).activeExternalCells := by
  refine ⟨?_, by decide, rfl⟩
  intro x
  rw [reindexActiveExternalCells, Finset.mem_image]

/-- Claim C8: after `reset`, the layer's episode-scoped state is cleared:
the external-cell set is empty, the chosen-cell map holds no entry for any
column (bursting restarts unpinned), and both diagnostic sets are empty. -/
theorem reset_clears_episode_state (s : State) :
    (reset s).activeExternalCells = ∅ ∧
      (∀ column, (reset s).chosenCellForColumn column = none) ∧
      (reset s).unpredictedActiveColumns = ∅ ∧
      (reset s).predictedActiveCells = ∅ :=
  ⟨rfl, fun _ => rfl, rfl, rfl⟩

/-- Claim C9: calling `compute` with `activeExternalCells` equal to `None`
or to the empty set is not an error: the argument is normalized to the
empty set before reindexing, and the layer's stored external-cell set after
the call is empty. -/
theorem compute_accepts_none_or_empty_external (B : Base) (lo : Bool)
    (s : State) (cols : Finset Nat) (fic learn : Bool) :
    normalizeExternalCells none = ∅ ∧
      normalizeExternalCells (some ∅) = ∅ ∧
      (compute B lo s cols none fic learn).activeExternalCells = ∅ ∧
      (compute B lo s cols (some ∅) fic learn).activeExternalCells = ∅ := by
  refine ⟨rfl, by simp [normalizeExternalCells], ?_, ?_⟩ <;>
    simp [compute, computeStep, normalizeExternalCells, reindexActiveExternalCells]

/-- Claim C10: bursting side effects do not depend on the `learn` flag.
With `learn = false`, every active-but-unpredicted column still gets a
(possibly overwritten) entry in the returned chosen-cell map, and — when no
candidate segment ever meets the activity threshold, so that the
least-used-cell fallback fires for every such column — `createSegment` is
still called, growing the shared connectivity graph by one segment per
bursting column even in a no-learning step. -/
theorem bursting_mutates_despite_no_learn (B : Base)
    (activeColumns activeExternalCells prevActiveExternalCells
      prevPredictiveCells : Finset Nat) (prevActiveSegments : Finset Segment)
    (prevActiveCells prevWinnerCells : Finset Nat) (connections : Connections)
    (fic lo : Bool) (chosen : Nat → Option Nat)
    (hnone : ∀ conn cands ref th,
      B.mostActiveSegmentForCells conn cands ref th = none) :
    (∀ c ∈ activeColumns \
        (B.activateCorrectlyPredictiveCells prevPredictiveCells activeColumns).2.2,
      ((computeFn B activeColumns activeExternalCells prevActiveExternalCells
        prevPredictiveCells prevActiveSegments prevActiveCells prevWinnerCells
        connections fic lo chosen false).chosenCellForColumn c).isSome) ∧
      (computeFn B activeColumns activeExternalCells prevActiveExternalCells
        prevPredictiveCells prevActiveSegments prevActiveCells prevWinnerCells
        connections fic lo chosen false).connections.segments.length =
        connections.segments.length +
          (activeColumns \
            (B.activateCorrectlyPredictiveCells prevPredictiveCells
              activeColumns).2.2).card := by
  constructor
  · intro c hcmem
    exact foldl_chosen_isSome_of_mem B (prevActiveCells ∪ prevActiveExternalCells)
      lo
      (ascList (activeColumns \
        (B.activateCorrectlyPredictiveCells prevPredictiveCells activeColumns).2.2))
      { activeCells := ∅
        winnerCells := ∅
        learningSegments := ∅
        chosenCellForColumn := chosen
        connections := connections }
      c ((mem_ascList _ _).mpr hcmem)
  · have h := foldl_segments_length B (prevActiveCells ∪ prevActiveExternalCells)
      lo
      (ascList (activeColumns \
        (B.activateCorrectlyPredictiveCells prevPredictiveCells activeColumns).2.2))
      { activeCells := ∅
        winnerCells := ∅
        learningSegments := ∅
        chosenCellForColumn := chosen
        connections := connections }
      hnone
    rw [length_ascList] at h
    exact h

/-- Witness for C10: a fresh layer, column 0 bursting with `learn = false`,
still records a chosen cell for column 0 and allocates one new segment. -/
theorem bursting_mutates_despite_no_learn_witness :
    (∀ c ∈ ({0} : Finset Nat) \
        (okBase.activateCorrectlyPredictiveCells ∅ {0}).2.2,
      ((computeFn okBase {0} ∅ ∅ ∅ ∅ ∅ ∅ conn0 true true
        freshState.chosenCellForColumn false).chosenCellForColumn c).isSome) ∧
      (computeFn okBase {0} ∅ ∅ ∅ ∅ ∅ ∅ conn0 true true
        freshState.chosenCellForColumn false).connections.segments.length =
        conn0.segments.length +
          (({0} : Finset Nat) \
            (okBase.activateCorrectlyPredictiveCells ∅ {0}).2.2).card :=
  bursting_mutates_despite_no_learn okBase {0} ∅ ∅ ∅ ∅ ∅ ∅ conn0 true true
    freshState.chosenCellForColumn (fun _ _ _ _ => rfl)

end GeneralTemporalMemory
